import Mathlib

/-
Verification of the ulog logging package (src/ulog/ulog.go): the
configuration parser (ULog.Load), the level setter (ULog.SetLevel), the
time formatter (strftime) and the event dispatcher (ULog.log), embedded
shallowly in Lean.  Go strings are byte sequences and the Go code indexes
them byte by byte, so strings are modelled as lists of byte values.
-/

namespace Ulog

/-- Go strings are byte sequences; we model them as lists of byte values
(each value below 256). -/
abbrev GoStr := List Nat

/-- Byte list of an ASCII Lean string literal.  For ASCII strings the
UTF-8 bytes coincide with the code points; every literal passed to this
helper in this file is ASCII. -/
def bytes (s : String) : GoStr := s.data.map Char.toNat

/-- ASCII lower-casing of one byte.  Models Go strings.ToLower on the
ASCII subset, which covers every keyword and value the descriptor
mini-language compares against. -/
def lowerB (b : Nat) : Nat := if 65 ≤ b ∧ b ≤ 90 then b + 32 else b

/-- ASCII lower-casing of a byte string (Go strings.ToLower restricted to
ASCII input; theorems quantifying over arbitrary strings carry an
ASCII-ness hypothesis so that the model agrees with Go). -/
def lowerBytes (s : GoStr) : GoStr := s.map lowerB

/-- ASCII whitespace test, the ASCII fragment of Go unicode.IsSpace as
used by strings.TrimSpace. -/
def isSpaceB (b : Nat) : Bool :=
  b = 32 || b = 9 || b = 10 || b = 13 || b = 11 || b = 12

/-- Go strings.TrimSpace on ASCII whitespace: drop leading and trailing
whitespace bytes. -/
def trimSpace (s : GoStr) : GoStr :=
  ((s.dropWhile isSpaceB).reverse.dropWhile isSpaceB).reverse

/-- Association-list lookup by exact byte-string key, modelling a Go map
read that distinguishes present from absent keys. -/
def lookupStr (k : GoStr) : List (GoStr × Nat) → Option Nat
  | [] => none
  | kv :: rest => if k = kv.1 then some kv.2 else lookupStr k rest

/-- The facilities map (ulog.go lines 24-35).  Values are the numeric
values of the Go log/syslog constants: LOG_USER = 8, LOG_DAEMON = 24,
LOG_LOCAL0 .. LOG_LOCAL7 = 128 .. 184 in steps of 8. -/
def facilities : List (GoStr × Nat) :=
  [(bytes "user", 8), (bytes "daemon", 24),
   (bytes "local0", 128), (bytes "local1", 136), (bytes "local2", 144),
   (bytes "local3", 152), (bytes "local4", 160), (bytes "local5", 168),
   (bytes "local6", 176), (bytes "local7", 184)]

/-- The severities map (ulog.go lines 36-41).  Values are the numeric
values of the Go log/syslog constants: LOG_ERR = 3, LOG_WARNING = 4,
LOG_INFO = 6, LOG_DEBUG = 7; the zero value of the Priority type is
LOG_EMERG = 0. -/
def severities : List (GoStr × Nat) :=
  [(bytes "error", 3), (bytes "warning", 4),
   (bytes "info", 6), (bytes "debug", 7)]

/-- A Go map read m[k] that yields the zero value 0 when the key is
absent. -/
def mapGetD (m : List (GoStr × Nat)) (k : GoStr) : Nat :=
  (lookupStr k m).getD 0

/-- The severityLabels map (ulog.go lines 43-48); a missing key yields
the empty string, the Go zero value. -/
def severityLabels (s : Nat) : GoStr :=
  if s = 3 then bytes "ERRO "
  else if s = 4 then bytes "WARN "
  else if s = 6 then bytes "INFO "
  else if s = 7 then bytes "DBUG "
  else []

/-- The severityColors map (ulog.go lines 50-55); a missing key yields
the empty string. -/
def severityColors (s : Nat) : GoStr :=
  if s = 3 then 27 :: bytes "[31m"
  else if s = 4 then 27 :: bytes "[33m"
  else if s = 6 then 27 :: bytes "[36m"
  else if s = 7 then 27 :: bytes "[32m"
  else []

/-- Decimal digits of a natural number, most significant first, as
bytes. -/
def digits (n : Nat) : GoStr := (Nat.toDigits 10 n).map Char.toNat

/-- Go fmt.Sprintf %0wd for a non-negative value: zero-pad to width w. -/
def padZ (w : Nat) (n : Nat) : GoStr :=
  List.replicate (w - (digits n).length) 48 ++ digits n

/-- Go fmt.Sprintf %wd for a non-negative value: space-pad to width w. -/
def padS (w : Nat) (n : Nat) : GoStr :=
  List.replicate (w - (digits n).length) 32 ++ digits n

/-- Go fmt.Sprintf %d on a possibly negative integer. -/
def decInt (i : Int) : GoStr :=
  if i < 0 then 45 :: digits i.natAbs else digits i.natAbs

/-- A time instant as observed through the Go time.Time accessors that
ulog.go calls.  Fields hold the values the corresponding accessors
return (month 1-12, weekday 0-6 with 0 = Sunday, yearday from 1);
unixNanos is the instant on the monotonic nanosecond axis used by
time.Time.Sub, and zoneOffset is the zone offset east of UTC in
seconds. -/
structure Tm where
  year : Nat
  month : Nat
  day : Nat
  hour : Nat
  minute : Nat
  second : Nat
  nanosecond : Nat
  yearday : Nat
  weekday : Nat
  isoYear : Nat
  isoWeek : Nat
  unix : Int
  unixNanos : Int
  zoneOffset : Int
  zoneName : GoStr
deriving DecidableEq

/-- Abbreviated weekday names as produced by Go time.Time.Format with
layout Mon. -/
def wdayAbbrev (w : Nat) : GoStr :=
  [bytes "Sun", bytes "Mon", bytes "Tue", bytes "Wed",
   bytes "Thu", bytes "Fri", bytes "Sat"].getD w []

/-- Full weekday names (Go layout Monday). -/
def wdayFull (w : Nat) : GoStr :=
  [bytes "Sunday", bytes "Monday", bytes "Tuesday", bytes "Wednesday",
   bytes "Thursday", bytes "Friday", bytes "Saturday"].getD w []

/-- Abbreviated month names (Go layout Jan), indexed by month number
1-12. -/
def monAbbrev (m : Nat) : GoStr :=
  [[], bytes "Jan", bytes "Feb", bytes "Mar", bytes "Apr", bytes "May",
   bytes "Jun", bytes "Jul", bytes "Aug", bytes "Sep", bytes "Oct",
   bytes "Nov", bytes "Dec"].getD m []

/-- Full month names (Go layout January), indexed by month number
1-12. -/
def monFull (m : Nat) : GoStr :=
  [[], bytes "January", bytes "February", bytes "March", bytes "April",
   bytes "May", bytes "June", bytes "July", bytes "August",
   bytes "September", bytes "October", bytes "November",
   bytes "December"].getD m []

/-- Go time.Time.Format with layout -0700: sign followed by the zone
offset as hhmm. -/
def zoneOffStr (off : Int) : GoStr :=
  (if off < 0 then bytes "-" else bytes "+") ++
    padZ 2 (off.natAbs / 3600) ++ padZ 2 (off.natAbs % 3600 / 60)

/-- Output of one recognized strftime verb (the inner switch of ulog.go
lines 229-353); an unrecognized verb appends nothing. -/
def verbOut (c : Nat) (base : Tm) : GoStr :=
  match c with
  | 97  => wdayAbbrev base.weekday
  | 65  => wdayFull base.weekday
  | 98  => monAbbrev base.month
  | 66  => monFull base.month
  | 99  => wdayAbbrev base.weekday ++ bytes " " ++ monAbbrev base.month ++
           bytes " " ++ digits base.day ++ bytes " " ++ padZ 2 base.hour ++
           bytes ":" ++ padZ 2 base.minute ++ bytes ":" ++
           padZ 2 base.second ++ bytes " " ++ padZ 4 base.year
  | 67  => padZ 2 (base.year / 100)
  | 100 => padZ 2 base.day
  | 68  => padZ 2 base.month ++ bytes "/" ++ padZ 2 base.day ++ bytes "/" ++
           padZ 2 (base.year % 100)
  | 101 => padS 2 base.day
  | 102 => padZ 6 (base.nanosecond / 1000)
  | 70  => padZ 4 base.year ++ bytes "-" ++ padZ 2 base.month ++
           bytes "-" ++ padZ 2 base.day
  | 103 => padZ 2 (base.isoYear % 100)
  | 71  => padZ 4 base.isoYear
  | 104 => monAbbrev base.month
  | 72  => padZ 2 base.hour
  | 73  => if base.hour = 0 ∨ base.hour = 12 then bytes "12"
           else padZ 2 (base.hour % 12)
  | 106 => padZ 3 base.yearday
  | 107 => padS 2 base.hour
  | 108 => if base.hour = 0 ∨ base.hour = 12 then bytes "12"
           else padS 2 (base.hour % 12)
  | 109 => padZ 2 base.month
  | 77  => padZ 2 base.minute
  | 110 => [10]
  | 112 => if base.hour < 12 then bytes "AM" else bytes "PM"
  | 80  => if base.hour < 12 then bytes "am" else bytes "pm"
  | 114 => (if base.hour = 0 ∨ base.hour = 12 then bytes "12"
            else padZ 2 (base.hour % 12)) ++
           bytes ":" ++ padZ 2 base.minute ++ bytes ":" ++
           padZ 2 base.second ++
           (if base.hour < 12 then bytes " AM" else bytes " PM")
  | 82  => padZ 2 base.hour ++ bytes ":" ++ padZ 2 base.minute
  | 115 => decInt base.unix
  | 83  => padZ 2 base.second
  | 116 => [9]
  | 84  => padZ 2 base.hour ++ bytes ":" ++ padZ 2 base.minute ++
           bytes ":" ++ padZ 2 base.second
  | 117 => digits (if base.weekday = 0 then 7 else base.weekday)
  | 85  => digits ((base.yearday + 6 - base.weekday) / 7)
  | 86  => padZ 2 base.isoWeek
  | 119 => digits base.weekday
  | 87  => digits ((base.yearday + 6 -
             (if base.weekday = 0 then 6 else base.weekday - 1)) / 7)
  | 120 => padZ 2 base.month ++ bytes "/" ++ padZ 2 base.day ++
           bytes "/" ++ padZ 2 (base.year % 100)
  | 88  => padZ 2 base.hour ++ bytes ":" ++ padZ 2 base.minute ++
           bytes ":" ++ padZ 2 base.second
  | 121 => padZ 2 (base.year % 100)
  | 89  => padZ 4 base.year
  | 122 => zoneOffStr base.zoneOffset
  | 90  => base.zoneName
  | 37  => [37]
  | _   => []

/-- The byte values that the inner switch of strftime recognizes as
verbs after a percent sign. -/
def recognizedVerbs : GoStr :=
  bytes "aAbBcCdDefFgGhHIjklmMnpPrRsStTuUVwWxXyYzZ%"

/-- Go conversion string(b) of a single byte value: the UTF-8 encoding
of the code point b.  For bytes at and above 128 this produces a
two-byte sequence, not the original byte. -/
def byteToStr (b : Nat) : GoStr :=
  if b < 128 then [b] else [192 + b / 64, 128 + b % 64]

/-- The strftime function (ulog.go lines 221-361): scan the layout byte
by byte; on a percent sign with a following byte, emit the verb output
and skip that byte; on a trailing percent sign, emit nothing; otherwise
emit string(byte). -/
def strftime (layout : GoStr) (base : Tm) : GoStr :=
  match layout with
  | [] => []
  | b :: rest =>
    if b = 37 then
      match rest with
      | [] => []
      | c :: rest2 => verbOut c base ++ strftime rest2 base
    else
      byteToStr b ++ strftime rest base

/-- The ULog record (ulog.go lines 57-77).  File and syslog handles are
modelled by Option Unit (open or nil); the console handle is modelled by
a flag selecting stdout over the default stderr; lastCheck is the
nanosecond instant of the last rotation check; the compiled colorizer
regexp and the mutex carry no data and are omitted (lock activity is
recorded in the event trace instead). -/
structure ULog where
  file : Bool
  console : Bool
  syslog : Bool
  fileHandle : Option Unit
  filePath : GoStr
  filePreviousPath : GoStr
  fileTime : Nat
  fileSeverity : Bool
  consoleStdout : Bool
  consoleTime : Nat
  consoleSeverity : Bool
  consoleColors : Bool
  syslogHandle : Option Unit
  syslogRemote : GoStr
  syslogName : GoStr
  syslogFacility : Nat
  optionUTC : Bool
  lastCheck : Int
  level : Nat
deriving DecidableEq

/-- TIME_NONE, TIME_DATE, TIME_TIMESTAMP (ulog.go lines 18-22). -/
def TIME_NONE : Nat := 0

/-- TIME_DATE constant. -/
def TIME_DATE : Nat := 1

/-- TIME_TIMESTAMP constant. -/
def TIME_TIMESTAMP : Nat := 2

/-- True when the lowered value is one of the Go truthy strings tested
throughout Load: 1, true, on, yes. -/
def trueish (v : GoStr) : Bool :=
  v = bytes "1" ∨ v = bytes "true" ∨ v = bytes "on" ∨ v = bytes "yes"

/-- Go regexp MatchString of the anchored pattern colon-digits-end used
for the syslog remote address: the string ends with a colon followed by
at least one ASCII digit. -/
def endsWithPort (s : GoStr) : Bool :=
  let r := s.reverse
  let ds := r.takeWhile (fun b => 48 ≤ b ∧ b ≤ 57)
  decide (ds ≠ []) && decide ((r.drop ds.length).head? = some 58)

/-- One key/value option inside a file directive (ulog.go lines
114-131).  The path value keeps its case; time and severity values are
lowered before comparison. -/
def fileOption (u : ULog) (kv : GoStr × GoStr) : ULog :=
  let k := lowerBytes kv.1
  if k = bytes "path" then { u with filePath := kv.2 }
  else if k = bytes "time" then
    let v := lowerBytes kv.2
    if v = bytes "stamp" ∨ v = bytes "timestamp" then
      { u with fileTime := TIME_TIMESTAMP }
    else if ¬trueish v then { u with fileTime := TIME_NONE }
    else u
  else if k = bytes "severity" then
    if ¬trueish (lowerBytes kv.2) then { u with fileSeverity := false }
    else u
  else u

/-- One key/value option inside a console directive (ulog.go lines
138-160); the value is lowered before every comparison, including the
output target. -/
def consoleOption (u : ULog) (kv : GoStr × GoStr) : ULog :=
  let k := lowerBytes kv.1
  let v := lowerBytes kv.2
  if k = bytes "output" then
    if v = bytes "stdout" then { u with consoleStdout := true } else u
  else if k = bytes "time" then
    if v = bytes "stamp" ∨ v = bytes "timestamp" then
      { u with consoleTime := TIME_TIMESTAMP }
    else if ¬trueish v then { u with consoleTime := TIME_NONE }
    else u
  else if k = bytes "severity" then
    if ¬trueish v then { u with consoleSeverity := false } else u
  else if k = bytes "colors" then
    if ¬trueish v then { u with consoleColors := false } else u
  else u

/-- One key/value option inside a syslog directive (ulog.go lines
164-176).  Remote and name keep their case; the facility value is
lowered and looked up in the facilities map, an absent key yielding the
Go zero value 0. -/
def syslogOption (u : ULog) (kv : GoStr × GoStr) : ULog :=
  let k := lowerBytes kv.1
  if k = bytes "remote" then
    let r := if endsWithPort kv.2 then kv.2 else kv.2 ++ bytes ":514"
    { u with syslogRemote := r }
  else if k = bytes "name" then { u with syslogName := kv.2 }
  else if k = bytes "facility" then
    { u with syslogFacility := mapGetD facilities (lowerBytes kv.2) }
  else u

/-- One key/value option inside an option directive (ulog.go lines
178-188); the value is lowered first; an unrecognized level maps to the
zero Priority value 0. -/
def optionOption (u : ULog) (kv : GoStr × GoStr) : ULog :=
  let k := lowerBytes kv.1
  let v := lowerBytes kv.2
  if k = bytes "utc" then
    if trueish v then { u with optionUTC := true } else u
  else if k = bytes "level" then
    { u with level := mapGetD severities v }
  else u

/-- One directive of the descriptor: its name together with the key/value
pairs the option regexp extracts from its parenthesized body.  The two
regexps of Load (stdlib regexp matching) are abstracted: Load receives
the list of matches they produce. -/
abbrev Directive := GoStr × List (GoStr × GoStr)

/-- The switch on one directive (ulog.go lines 111-189).  A file
directive enables the file sink, applies its options, then disables the
sink again when the accumulated path is still empty (lines 133-135). -/
def applyDirective (u : ULog) (d : Directive) : ULog :=
  let n := lowerBytes d.1
  if n = bytes "file" then
    let u1 := d.2.foldl fileOption { u with file := true }
    if u1.filePath = [] then { u1 with file := false } else u1
  else if n = bytes "console" then
    d.2.foldl consoleOption { u with console := true }
  else if n = bytes "syslog" then
    d.2.foldl syslogOption { u with syslog := true }
  else if n = bytes "option" then
    d.2.foldl optionOption u
  else u

/-- The state Load installs before reading any directive (ulog.go lines
88-109): Close has nilled both handles, and every configuration field is
reset to its default.  progName is filepath.Base of the first process
argument. -/
def initState (progName : GoStr) : ULog :=
  { file := false
    console := false
    syslog := false
    fileHandle := none
    filePath := []
    filePreviousPath := []
    fileTime := TIME_DATE
    fileSeverity := true
    consoleStdout := false
    consoleTime := TIME_DATE
    consoleSeverity := true
    consoleColors := true
    syslogHandle := none
    syslogRemote := []
    syslogName := progName
    syslogFacility := 24
    optionUTC := false
    lastCheck := 0
    level := 6 }

/-- ULog.Load (ulog.go lines 87-192) after regexp extraction of the
directives: reset every field, then fold the directives in order. -/
def Load (progName : GoStr) (ds : List Directive) : ULog :=
  ds.foldl applyDirective (initState progName)

/-- ULog.SetLevel (ulog.go lines 207-219): lower the argument and update
the level on the four known names, leaving the state untouched
otherwise. -/
def SetLevel (u : ULog) (level : GoStr) : ULog :=
  let l := lowerBytes level
  if l = bytes "error" then { u with level := 3 }
  else if l = bytes "warning" then { u with level := 4 }
  else if l = bytes "info" then { u with level := 6 }
  else if l = bytes "debug" then { u with level := 7 }
  else u

/-- The payload argument of the dispatcher (xlayout interface{}).  nil is
the nil interface; str is a string; mp is a key/value map represented by
the byte text the JSON encoder produces for it (encoding a string-keyed
map succeeds, and the encoder output ends with a newline the dispatcher
trims); other is any non-nil value of a kind that is neither Map nor
String. -/
inductive Payload where
  | nil : Payload
  | str : GoStr → Payload
  | mp : GoStr → Payload
  | other : Payload
deriving DecidableEq

/-- True exactly on map payloads (reflect Kind comparison at ulog.go
line 467). -/
def Payload.isMp : Payload → Bool
  | .mp _ => true
  | _ => false

/-- Observable actions of one dispatcher call, in program order: mutex
acquire and release, syslog dialing and delivery, file close, the open
attempt (which includes the MkdirAll on the parent directory), and the
writes.  Writes carry the prefix, the unsubstituted format string and the
argument list (fmt substitution of stdlib is not re-modelled); the
console write also records the destination and whether the key
colorizer rewrote the arguments. -/
inductive Event where
  | lock : Event
  | unlock : Event
  | dial : GoStr → GoStr → Nat → GoStr → Event
  | syslogSend : Nat → GoStr → List GoStr → Event
  | closeFile : Event
  | openFile : GoStr → Event
  | writeFile : GoStr → GoStr → List GoStr → Event
  | writeConsole : Bool → GoStr → GoStr → List GoStr → Bool → Event
deriving DecidableEq

/-- The format string a write event carries, when it is a write. -/
def eventLayout : Event → Option GoStr
  | .syslogSend _ l _ => some l
  | .writeFile _ l _ => some l
  | .writeConsole _ _ l _ _ => some l
  | _ => none

/-- The payload switch of the dispatcher (ulog.go lines 368-381): a map
payload is serialized, trimmed and becomes the sole argument of a %s
format; a string payload is the format itself; any other non-nil value
leaves the format empty.  A nil payload makes reflect.TypeOf return nil
and the Kind call on it panic, modelled as none. -/
def resolveLayout : Payload → List GoStr → Option (GoStr × List GoStr)
  | .nil, _ => none
  | .mp j, _ => some (bytes "%s", [trimSpace j])
  | .str s, a => some (s, a)
  | .other, a => some ([], a)

/-- The syslog branch of the dispatcher (ulog.go lines 383-409): when
the sink is enabled and the handle is nil, dial under the lock (udp when
a remote address is set, the local transport otherwise; dialOk says
whether syslog.Dial succeeds); then, if a handle exists, deliver at the
method matching the severity — the switch has no default, so other
severities deliver nothing. -/
def syslogStep (u : ULog) (severity : Nat) (layout : GoStr)
    (a : List GoStr) (dialOk : Bool) : ULog × List Event :=
  if u.syslog then
    let dialed :=
      if u.syslogHandle = none then
        let protocol := if u.syslogRemote ≠ [] then bytes "udp" else []
        ({ u with syslogHandle := if dialOk then some () else none },
         [Event.lock,
          Event.dial protocol u.syslogRemote u.syslogFacility u.syslogName,
          Event.unlock])
      else (u, [])
    let sendEvs :=
      if dialed.1.syslogHandle = some () then
        if severity = 3 ∨ severity = 4 ∨ severity = 6 ∨ severity = 7 then
          [Event.syslogSend severity layout a]
        else []
      else []
    (dialed.1, dialed.2 ++ sendEvs)
  else (u, [])

/-- The timestamp prefix of a file or console line (ulog.go lines
437-443 and 453-459). -/
def timePfx (mode : Nat) (now : Tm) : GoStr :=
  if mode = TIME_DATE then
    padZ 4 now.year ++ bytes "-" ++ padZ 2 now.month ++ bytes "-" ++
      padZ 2 now.day ++ bytes " " ++ padZ 2 now.hour ++ bytes ":" ++
      padZ 2 now.minute ++ bytes ":" ++ padZ 2 now.second ++ bytes " "
  else if mode = TIME_TIMESTAMP then decInt now.unix ++ bytes " "
  else []

/-- The file branch of the dispatcher (ulog.go lines 416-451): when the
sink is enabled, and at least a second has passed since the last check
or no handle is open, re-resolve the path under the lock, close and
clear the handle when the path changed, record the new path, and attempt
an open (openOk says whether os.OpenFile succeeds) when no handle is
open; afterwards, when a handle is open, write the prefixed line under
the lock. -/
def fileStep (u : ULog) (severity : Nat) (layout : GoStr)
    (a : List GoStr) (now : Tm) (openOk : Bool) : ULog × List Event :=
  if u.file then
    let rotated :=
      if now.unixNanos - u.lastCheck ≥ 1000000000 ∨ u.fileHandle = none then
        let u1 := { u with lastCheck := now.unixNanos }
        let path := strftime u.filePath now
        let closed :=
          if path ≠ u1.filePreviousPath then
            (match u1.fileHandle with
             | some _ =>
               ({ u1 with fileHandle := none, filePreviousPath := path },
                [Event.closeFile])
             | none => ({ u1 with filePreviousPath := path }, []))
          else (u1, [])
        let opened :=
          if closed.1.fileHandle = none then
            ({ closed.1 with fileHandle := if openOk then some () else none },
             [Event.openFile path])
          else (closed.1, [])
        (opened.1, [Event.lock] ++ closed.2 ++ opened.2 ++ [Event.unlock])
      else (u, [])
    let writeEvs :=
      if rotated.1.fileHandle = some () then
        let pfx := timePfx u.fileTime now ++
          (if u.fileSeverity then severityLabels severity else [])
        [Event.lock, Event.writeFile pfx layout a, Event.unlock]
      else []
    (rotated.1, rotated.2 ++ writeEvs)
  else (u, [])

/-- The console branch of the dispatcher (ulog.go lines 452-475): build
the prefix, wrapping the severity label in its color when colors are on,
and write the line to the selected stream under the lock; when the
payload was a map and colors are on, the colorizer regexp has rewritten
the arguments first, recorded here as a flag on the event. -/
def consoleStep (u : ULog) (severity : Nat) (layout : GoStr)
    (a : List GoStr) (now : Tm) (isMap : Bool) : List Event :=
  if u.console then
    let pfx := timePfx u.consoleTime now ++
      (if u.consoleSeverity then
        (if u.consoleColors then
          severityColors severity ++ severityLabels severity ++
            (27 :: bytes "[0m")
         else severityLabels severity)
       else [])
    [Event.lock,
     Event.writeConsole u.consoleStdout pfx layout a (isMap && u.consoleColors),
     Event.unlock]
  else []

/-- ULog.log (ulog.go lines 363-476): filter on level and enabled sinks,
normalize the payload (none models the panic on a nil payload), then run
the syslog, file and console branches in order.  nowUTC and nowLocal are
the two readings of time.Now the UTC option selects between; dialOk and
openOk are the outcomes of the two fallible OS calls.  The result is the
new state and the ordered event trace. -/
def log (u : ULog) (severity : Nat) (payload : Payload) (args : List GoStr)
    (nowUTC nowLocal : Tm) (dialOk openOk : Bool) :
    Option (ULog × List Event) :=
  if u.level < severity ∨
      (u.syslog = false ∧ u.file = false ∧ u.console = false) then
    some (u, [])
  else
    match resolveLayout payload args with
    | none => none
    | some la =>
      let layout := trimSpace la.1
      let s1 := syslogStep u severity layout la.2 dialOk
      let now := if u.optionUTC then nowUTC else nowLocal
      let s2 := fileStep s1.1 severity layout la.2 now openOk
      let cEvs := consoleStep s2.1 severity layout la.2 now payload.isMp
      some (s2.1, s1.2 ++ s2.2 ++ cEvs)

/-- A sample instant: 2024-03-05 08:00:00 UTC (a Tuesday, day 65 of the
year, ISO week 10), used to instantiate universally quantified
theorems. -/
def tm0 : Tm :=
  { year := 2024, month := 3, day := 5, hour := 8, minute := 0, second := 0,
    nanosecond := 0, yearday := 65, weekday := 2, isoYear := 2024,
    isoWeek := 10, unix := 1709625600, unixNanos := 1709625600000000000,
    zoneOffset := 0, zoneName := bytes "UTC" }

/-- An unrecognized verb byte produces no output. -/
theorem verbOut_eq_nil_of_not_recognized (c : Nat) (t : Tm)
    (h : c ∉ recognizedVerbs) : verbOut c t = [] := by
  unfold verbOut
  split <;> first
    | rfl
    | exact absurd (by decide) h

/-- Unfolding strftime on a leading percent sign with a following
byte. -/
theorem strftime_pct_cons (c : Nat) (rest : GoStr) (t : Tm) :
    strftime (37 :: c :: rest) t = verbOut c t ++ strftime rest t := rfl

/-- Unfolding strftime on a leading non-percent byte. -/
theorem strftime_cons_ne (b : Nat) (rest : GoStr) (t : Tm) (hb : b ≠ 37) :
    strftime (b :: rest) t = byteToStr b ++ strftime rest t := by
  rw [strftime.eq_def]
  simp only []
  rw [if_neg hb]

/-- A percent sign at the very end of the layout is dropped: appending
one to a layout not already ending in a percent sign leaves the output
unchanged (strong induction on the layout length). -/
theorem strftime_concat_pct_aux (t : Tm) :
    ∀ n s, List.length s ≤ n → s.getLast? ≠ some 37 →
      strftime (s ++ [37]) t = strftime s t := by
  intro n
  induction n with
  | zero =>
    intro s hl _
    have hs : s = [] := List.eq_nil_of_length_eq_zero (Nat.le_zero.mp hl)
    subst hs
    rfl
  | succ n ih =>
    intro s hl hlast
    match s with
    | [] => rfl
    | b :: rest =>
      by_cases hb : b = 37
      · subst hb
        match rest with
        | [] => simp [List.getLast?] at hlast
        | c :: rest2 =>
          have h1 : strftime ((37 :: c :: rest2) ++ [37]) t
              = verbOut c t ++ strftime (rest2 ++ [37]) t := rfl
          have h2 : strftime (37 :: c :: rest2) t
              = verbOut c t ++ strftime rest2 t := rfl
          rw [h1, h2, ih rest2 (by simp at hl; omega) ?hl2]
          case hl2 =>
            match rest2 with
            | [] => simp
            | x :: xs =>
              rw [show ((x :: xs).getLast? : Option Nat)
                    = (37 :: c :: x :: xs).getLast? by
                  rw [List.getLast?_cons_cons, List.getLast?_cons_cons]]
              exact hlast
      · rw [List.cons_append, strftime_cons_ne b _ t hb, strftime_cons_ne b _ t hb,
          ih rest (by simp at hl; omega) ?hl3]
        case hl3 =>
          match rest with
          | [] => simp
          | x :: xs =>
            rw [show ((x :: xs).getLast? : Option Nat)
                  = (b :: x :: xs).getLast? by rw [List.getLast?_cons_cons]]
            exact hlast

/-- C10: in the time formatter, a percent sign occurring as the final
character of the template contributes nothing to the output: for every
template s not ending in a percent sign and every instant t,
format(s ++ pct) = format(s). -/
theorem strftime_trailing_pct_dropped (s : GoStr) (t : Tm)
    (h : s.getLast? ≠ some 37) :
    strftime (s ++ [37]) t = strftime s t :=
  strftime_concat_pct_aux t s.length s le_rfl h

/-- Witness for C10 at the template ab and the sample instant. -/
theorem strftime_trailing_pct_dropped_witness :
    strftime (bytes "ab" ++ [37]) tm0 = strftime (bytes "ab") tm0 :=
  strftime_trailing_pct_dropped (bytes "ab") tm0 (by decide)

/-- C7: the two-byte sequence pct-pct produces one literal percent sign,
and a percent sign followed by a byte that is no recognized verb
produces nothing — both bytes vanish. -/
theorem strftime_pct_rules (t : Tm) :
    strftime (bytes "%%") t = bytes "%" ∧
    ∀ c s, c ∉ recognizedVerbs →
      strftime (37 :: c :: s) t = strftime s t := by
  refine ⟨rfl, ?_⟩
  intro c s h
  rw [strftime_pct_cons, verbOut_eq_nil_of_not_recognized c t h,
    List.nil_append]

/-- Witness for C7 at the sample instant, with the unrecognized verb
byte q. -/
theorem strftime_pct_rules_witness :
    strftime (bytes "%%") tm0 = bytes "%" ∧ strftime [37, 113] tm0 = [] :=
  ⟨(strftime_pct_rules tm0).1,
   ((strftime_pct_rules tm0).2 113 [] (by decide)).trans rfl⟩

/-- Counterexample to C3: the template consisting of the two bytes of
the UTF-8 encoding of the character e-acute contains no percent sign,
yet the formatter re-encodes each byte as a code point (the Go
conversion string(b)) and returns four different bytes. -/
theorem strftime_non_ascii_changed :
    (37 ∉ ([195, 169] : GoStr)) ∧
      strftime [195, 169] tm0 = [195, 131, 194, 169] ∧
      strftime [195, 169] tm0 ≠ [195, 169] := by decide

/-- C3 amended: for every template of ASCII bytes (below 128) containing
no percent sign, and every instant, the formatter returns the template
unchanged. -/
theorem strftime_ascii_identity (s : GoStr) (t : Tm)
    (hA : ∀ b ∈ s, b < 128) (hP : 37 ∉ s) : strftime s t = s := by
  induction s with
  | nil => rfl
  | cons b rest ih =>
    have hb : b ≠ 37 := by
      intro hb
      exact hP (hb ▸ List.mem_cons_self b rest)
    rw [strftime_cons_ne b rest t hb]
    have hlt : b < 128 := hA b (List.mem_cons_self b rest)
    rw [show byteToStr b = [b] from if_pos hlt]
    rw [ih (fun x hx => hA x (List.mem_cons_of_mem b hx))
      (fun hx => hP (List.mem_cons_of_mem b hx))]
    rfl

/-- Witness for the amended C3 at the ASCII template abc. -/
theorem strftime_ascii_identity_witness :
    strftime (bytes "abc") tm0 = bytes "abc" :=
  strftime_ascii_identity (bytes "abc") tm0 (by decide) (by decide)

/-- Shared helper: the dispatcher returns at once, with no events and an
unchanged state, whenever its guard holds. -/
theorem log_early_return (u : ULog) (severity : Nat) (payload : Payload)
    (args : List GoStr) (t1 t2 : Tm) (d o : Bool)
    (h : u.level < severity ∨
      (u.syslog = false ∧ u.file = false ∧ u.console = false)) :
    log u severity payload args t1 t2 d o = some (u, []) := by
  unfold log
  rw [if_pos h]

/-- C4: for every severity strictly less urgent than the configured
minimum (numerically larger than the level field), and likewise whenever
no sink is enabled, the dispatcher returns immediately: the trace is
empty (no write, no open, no dial, no lock) and the state is returned
unchanged. -/
theorem log_filtered (u : ULog) (severity : Nat) (payload : Payload)
    (args : List GoStr) (t1 t2 : Tm) (d o : Bool)
    (h : u.level < severity ∨
      (u.syslog = false ∧ u.file = false ∧ u.console = false)) :
    log u severity payload args t1 t2 d o = some (u, []) :=
  log_early_return u severity payload args t1 t2 d o h

/-- Witness for C4: the default state has level 6 (info), so a debug
emit (severity 7) is filtered. -/
theorem log_filtered_witness :
    log (initState []) 7 (Payload.str (bytes "x")) [] tm0 tm0 true true
      = some (initState [], []) :=
  log_filtered (initState []) 7 (Payload.str (bytes "x")) [] tm0 tm0
    true true (Or.inl (by decide))

/-- C9: SetLevel updates the minimum severity exactly when the lowered
name is found in the severities map, and returns the state unchanged
otherwise (the ASCII hypothesis keeps the byte-level lower-casing of the
model aligned with Go strings.ToLower). -/
theorem setLevel_exact (u : ULog) (name : GoStr)
    (_hA : ∀ b ∈ name, b < 128) :
    (match lookupStr (lowerBytes name) severities with
     | some v => SetLevel u name = { u with level := v }
     | none => SetLevel u name = u) := by
  have hlk : lookupStr (lowerBytes name) severities =
      if lowerBytes name = bytes "error" then some 3
      else if lowerBytes name = bytes "warning" then some 4
      else if lowerBytes name = bytes "info" then some 6
      else if lowerBytes name = bytes "debug" then some 7
      else none := rfl
  unfold SetLevel
  rw [hlk]
  by_cases h1 : lowerBytes name = bytes "error"
  · rw [if_pos h1, if_pos h1]
  · rw [if_neg h1, if_neg h1]
    by_cases h2 : lowerBytes name = bytes "warning"
    · rw [if_pos h2, if_pos h2]
    · rw [if_neg h2, if_neg h2]
      by_cases h3 : lowerBytes name = bytes "info"
      · rw [if_pos h3, if_pos h3]
      · rw [if_neg h3, if_neg h3]
        by_cases h4 : lowerBytes name = bytes "debug"
        · rw [if_pos h4, if_pos h4]
        · rw [if_neg h4, if_neg h4]

/-- Witness for C9: an unrecognized name leaves the state untouched, a
recognized one (case-insensitively) updates the level. -/
theorem setLevel_exact_witness :
    SetLevel (initState []) (bytes "bogus") = initState [] ∧
    SetLevel (initState []) (bytes "Debug")
      = { initState [] with level := 7 } := by
  constructor
  · have h := setLevel_exact (initState []) (bytes "bogus") (by decide)
    rw [show lookupStr (lowerBytes (bytes "bogus")) severities = none
      from by decide] at h
    exact h
  · have h := setLevel_exact (initState []) (bytes "Debug") (by decide)
    rw [show lookupStr (lowerBytes (bytes "Debug")) severities = some 7
      from by decide] at h
    exact h

/-- A file option whose key does not lower to path leaves the path
field alone. -/
theorem fileOption_keeps_filePath (u : ULog) (kv : GoStr × GoStr)
    (h : lowerBytes kv.1 ≠ bytes "path") :
    (fileOption u kv).filePath = u.filePath := by
  simp only [fileOption]
  rw [if_neg h]
  repeat' split
  all_goals rfl

/-- Console options never touch the file sink fields. -/
theorem consoleOption_keeps_file (u : ULog) (kv : GoStr × GoStr) :
    (consoleOption u kv).filePath = u.filePath ∧
      (consoleOption u kv).file = u.file := by
  refine ⟨?_, ?_⟩ <;>
    · simp only [consoleOption]
      repeat' split
      all_goals rfl

/-- Syslog options never touch the file sink fields. -/
theorem syslogOption_keeps_file (u : ULog) (kv : GoStr × GoStr) :
    (syslogOption u kv).filePath = u.filePath ∧
      (syslogOption u kv).file = u.file := by
  refine ⟨?_, ?_⟩ <;>
    · simp only [syslogOption]
      repeat' split
      all_goals rfl

/-- Option-directive options never touch the file sink fields. -/
theorem optionOption_keeps_file (u : ULog) (kv : GoStr × GoStr) :
    (optionOption u kv).filePath = u.filePath ∧
      (optionOption u kv).file = u.file := by
  refine ⟨?_, ?_⟩ <;>
    · simp only [optionOption]
      repeat' split
      all_goals rfl

/-- A syslog option whose key does not lower to facility leaves the
facility field alone. -/
theorem syslogOption_keeps_facility (u : ULog) (kv : GoStr × GoStr)
    (h : lowerBytes kv.1 ≠ bytes "facility") :
    (syslogOption u kv).syslogFacility = u.syslogFacility := by
  simp only [syslogOption]
  repeat' split
  all_goals rfl

/-- Folding file options with no path key leaves the path field
alone. -/
theorem foldl_fileOption_keeps_filePath (opts : List (GoStr × GoStr)) :
    ∀ u : ULog, (∀ kv ∈ opts, lowerBytes kv.1 ≠ bytes "path") →
      (opts.foldl fileOption u).filePath = u.filePath := by
  induction opts with
  | nil => intro u _; rfl
  | cons kv rest ih =>
    intro u h
    rw [List.foldl_cons,
      ih (fileOption u kv) (fun x hx => h x (List.mem_cons_of_mem kv hx)),
      fileOption_keeps_filePath u kv (h kv (List.mem_cons_self kv rest))]

/-- Folding syslog options with no facility key leaves the facility
field alone. -/
theorem foldl_syslogOption_keeps_facility (opts : List (GoStr × GoStr)) :
    ∀ u : ULog, (∀ kv ∈ opts, lowerBytes kv.1 ≠ bytes "facility") →
      (opts.foldl syslogOption u).syslogFacility = u.syslogFacility := by
  induction opts with
  | nil => intro u _; rfl
  | cons kv rest ih =>
    intro u h
    rw [List.foldl_cons,
      ih (syslogOption u kv) (fun x hx => h x (List.mem_cons_of_mem kv hx)),
      syslogOption_keeps_facility u kv (h kv (List.mem_cons_self kv rest))]

/-- Folding console options leaves the file sink fields alone. -/
theorem foldl_consoleOption_keeps_file (opts : List (GoStr × GoStr)) :
    ∀ u : ULog, (opts.foldl consoleOption u).filePath = u.filePath ∧
      (opts.foldl consoleOption u).file = u.file := by
  induction opts with
  | nil => intro u; exact ⟨rfl, rfl⟩
  | cons kv rest ih =>
    intro u
    rw [List.foldl_cons]
    refine ⟨(ih (consoleOption u kv)).1.trans ?_,
      (ih (consoleOption u kv)).2.trans ?_⟩
    · exact (consoleOption_keeps_file u kv).1
    · exact (consoleOption_keeps_file u kv).2

/-- Folding syslog options leaves the file sink fields alone. -/
theorem foldl_syslogOption_keeps_file (opts : List (GoStr × GoStr)) :
    ∀ u : ULog, (opts.foldl syslogOption u).filePath = u.filePath ∧
      (opts.foldl syslogOption u).file = u.file := by
  induction opts with
  | nil => intro u; exact ⟨rfl, rfl⟩
  | cons kv rest ih =>
    intro u
    rw [List.foldl_cons]
    refine ⟨(ih (syslogOption u kv)).1.trans ?_,
      (ih (syslogOption u kv)).2.trans ?_⟩
    · exact (syslogOption_keeps_file u kv).1
    · exact (syslogOption_keeps_file u kv).2

/-- Folding option-directive options leaves the file sink fields
alone. -/
theorem foldl_optionOption_keeps_file (opts : List (GoStr × GoStr)) :
    ∀ u : ULog, (opts.foldl optionOption u).filePath = u.filePath ∧
      (opts.foldl optionOption u).file = u.file := by
  induction opts with
  | nil => intro u; exact ⟨rfl, rfl⟩
  | cons kv rest ih =>
    intro u
    rw [List.foldl_cons]
    refine ⟨(ih (optionOption u kv)).1.trans ?_,
      (ih (optionOption u kv)).2.trans ?_⟩
    · exact (optionOption_keeps_file u kv).1
    · exact (optionOption_keeps_file u kv).2

/-- One directive whose file options name no path preserves the
invariant of an empty path and a disabled file sink. -/
theorem applyDirective_keeps_no_file (u : ULog) (d : Directive)
    (hd : lowerBytes d.1 = bytes "file" →
      ∀ kv ∈ d.2, lowerBytes kv.1 ≠ bytes "path")
    (hu : u.filePath = [] ∧ u.file = false) :
    (applyDirective u d).filePath = [] ∧
      (applyDirective u d).file = false := by
  simp only [applyDirective]
  by_cases h1 : lowerBytes d.1 = bytes "file"
  · rw [if_pos h1]
    have hpath : (d.2.foldl fileOption { u with file := true }).filePath
        = ([] : GoStr) := by
      rw [foldl_fileOption_keeps_filePath d.2 _ (hd h1)]
      exact hu.1
    rw [if_pos hpath]
    exact ⟨hpath, rfl⟩
  · rw [if_neg h1]
    by_cases h2 : lowerBytes d.1 = bytes "console"
    · rw [if_pos h2]
      have hc := foldl_consoleOption_keeps_file d.2 { u with console := true }
      exact ⟨hc.1.trans hu.1, hc.2.trans hu.2⟩
    · rw [if_neg h2]
      by_cases h3 : lowerBytes d.1 = bytes "syslog"
      · rw [if_pos h3]
        have hc := foldl_syslogOption_keeps_file d.2 { u with syslog := true }
        exact ⟨hc.1.trans hu.1, hc.2.trans hu.2⟩
      · rw [if_neg h3]
        by_cases h4 : lowerBytes d.1 = bytes "option"
        · rw [if_pos h4]
          have hc := foldl_optionOption_keeps_file d.2 u
          exact ⟨hc.1.trans hu.1, hc.2.trans hu.2⟩
        · rw [if_neg h4]
          exact hu

/-- Folding directives whose file options name no path preserves the
invariant. -/
theorem foldl_applyDirective_keeps_no_file (ds : List Directive) :
    ∀ u : ULog,
      (∀ d ∈ ds, lowerBytes d.1 = bytes "file" →
        ∀ kv ∈ d.2, lowerBytes kv.1 ≠ bytes "path") →
      u.filePath = [] ∧ u.file = false →
      (ds.foldl applyDirective u).filePath = [] ∧
        (ds.foldl applyDirective u).file = false := by
  induction ds with
  | nil => intro u _ hu; exact hu
  | cons d rest ih =>
    intro u h hu
    rw [List.foldl_cons]
    exact ih (applyDirective u d)
      (fun x hx => h x (List.mem_cons_of_mem d hx))
      (applyDirective_keeps_no_file u d (h d (List.mem_cons_self d rest)) hu)

/-- C8: for every descriptor whose file directives contain no path key
(keys being ASCII bytes, the domain on which the byte-wise lower-casing
model agrees with Go), the parsed configuration has the file sink
disabled, even when file directives were present. -/
theorem load_no_path_no_file (progName : GoStr) (ds : List Directive)
    (h : ∀ d ∈ ds, lowerBytes d.1 = bytes "file" →
      ∀ kv ∈ d.2, (∀ b ∈ kv.1, b < 128) ∧ lowerBytes kv.1 ≠ bytes "path") :
    (Load progName ds).file = false :=
  (foldl_applyDirective_keeps_no_file ds (initState progName)
    (fun d hd hf kv hkv => ((h d hd hf) kv hkv).2) ⟨rfl, rfl⟩).2

/-- Witness for C8: a descriptor with one pathless file directive. -/
theorem load_no_path_no_file_witness :
    (Load [] [(bytes "file", [(bytes "time", bytes "stamp")])]).file
      = false :=
  load_no_path_no_file [] [(bytes "file", [(bytes "time", bytes "stamp")])]
    (by decide)

/-- Counterexample to C2: a descriptor with a syslog directive and no
facility key yields the LOG_DAEMON default 24, not the zero facility
value. -/
theorem load_syslog_default_facility :
    (Load [] [(bytes "syslog", [])]).syslogFacility = 24 ∧
      (Load [] [(bytes "syslog", [])]).syslogFacility ≠ 0 := by decide

/-- C2 amended: in a descriptor with one syslog directive, an absent
facility key (keys ASCII) keeps the LOG_DAEMON default 24, while a
facility key whose lowered value is not in the facilities map, occurring
last, sets the zero facility value. -/
theorem load_syslog_facility (progName : GoStr)
    (opts : List (GoStr × GoStr)) (v : GoStr) :
    ((∀ kv ∈ opts, (∀ b ∈ kv.1, b < 128) ∧
        lowerBytes kv.1 ≠ bytes "facility") →
      (Load progName [(bytes "syslog", opts)]).syslogFacility = 24) ∧
    ((∀ b ∈ v, b < 128) → lookupStr (lowerBytes v) facilities = none →
      (Load progName
        [(bytes "syslog", opts ++ [(bytes "facility", v)])]).syslogFacility
        = 0) := by
  constructor
  · intro h
    have h1 : Load progName [(bytes "syslog", opts)]
        = opts.foldl syslogOption { initState progName with syslog := true } := by
      simp only [Load, List.foldl_cons, List.foldl_nil, applyDirective]
      rw [if_neg (by decide), if_neg (by decide), if_pos (by decide)]
    rw [h1, foldl_syslogOption_keeps_facility opts _ (fun kv hkv => (h kv hkv).2)]
    rfl
  · intro _ h
    have h1 : Load progName [(bytes "syslog", opts ++ [(bytes "facility", v)])]
        = (opts ++ [(bytes "facility", v)]).foldl syslogOption
            { initState progName with syslog := true } := by
      simp only [Load, List.foldl_cons, List.foldl_nil, applyDirective]
      rw [if_neg (by decide), if_neg (by decide), if_pos (by decide)]
    rw [h1, List.foldl_append, List.foldl_cons, List.foldl_nil]
    have h2 : ∀ w : ULog, (syslogOption w (bytes "facility", v)).syslogFacility
        = mapGetD facilities (lowerBytes v) := by
      intro w
      simp only [syslogOption]
      rw [if_neg (by decide), if_neg (by decide), if_pos (by decide)]
    rw [h2, mapGetD, h]
    rfl

/-- Witness for the amended C2: a name-only syslog directive keeps
facility 24; appending an unrecognized facility kern yields 0. -/
theorem load_syslog_facility_witness :
    (Load [] [(bytes "syslog",
      [(bytes "name", bytes "x")])]).syslogFacility = 24 ∧
    (Load [] [(bytes "syslog",
      [(bytes "name", bytes "x"), (bytes "facility", bytes "kern")])]
      ).syslogFacility = 0 :=
  ⟨(load_syslog_facility [] [(bytes "name", bytes "x")] (bytes "kern")).1
      (by decide),
   (load_syslog_facility [] [(bytes "name", bytes "x")] (bytes "kern")).2
      (by decide) (by decide)⟩

/-- Counterexample to C1: after parsing a descriptor enabling the
console sink and setting option(level=silly), the level holds the zero
Priority value 0 (LOG_EMERG) — but an emit at error severity (3) does
NOT pass the filter, because 0 < 3 makes the dispatcher return at once:
the trace is empty and no sink receives output, although the console
sink is enabled. -/
theorem load_zero_level_blocks_error :
    (Load [] [(bytes "console", []),
      (bytes "option", [(bytes "level", bytes "silly")])]).level = 0 ∧
    (Load [] [(bytes "console", []),
      (bytes "option", [(bytes "level", bytes "silly")])]).console = true ∧
    log (Load [] [(bytes "console", []),
        (bytes "option", [(bytes "level", bytes "silly")])])
      3 (Payload.str (bytes "x")) [] tm0 tm0 true true
      = some (Load [] [(bytes "console", []),
          (bytes "option", [(bytes "level", bytes "silly")])], []) := by
  refine ⟨by decide, by decide, ?_⟩
  exact log_early_return _ 3 (Payload.str (bytes "x")) [] tm0 tm0 true true
    (Or.inl (by decide))

/-- C1 amended: parsing a descriptor whose console directive enables the
console sink and whose level option holds an unrecognized value (ASCII
bytes) leaves the level at the zero Priority value 0, and this zero
value is a floor stricter than error: a subsequent emit at error
severity (3) is rejected by the severity filter and produces no output
and no state change, even though a sink is enabled. -/
theorem load_zero_level_floor (progName v : GoStr) (payload : Payload)
    (args : List GoStr) (t1 t2 : Tm) (d o : Bool)
    (_hA : ∀ b ∈ v, b < 128)
    (h : lookupStr (lowerBytes v) severities = none) :
    (Load progName [(bytes "console", []),
        (bytes "option", [(bytes "level", v)])]).level = 0 ∧
    (Load progName [(bytes "console", []),
        (bytes "option", [(bytes "level", v)])]).console = true ∧
    log (Load progName [(bytes "console", []),
        (bytes "option", [(bytes "level", v)])])
      3 payload args t1 t2 d o
      = some (Load progName [(bytes "console", []),
          (bytes "option", [(bytes "level", v)])], []) := by
  have hform : Load progName [(bytes "console", []),
      (bytes "option", [(bytes "level", v)])]
      = { initState progName with
          console := true
          level := (lookupStr (lowerBytes v) severities).getD 0 } := rfl
  rw [h] at hform
  refine ⟨by rw [hform]; rfl, by rw [hform], ?_⟩
  exact log_early_return _ 3 payload args t1 t2 d o
    (Or.inl (by rw [hform]; exact Nat.succ_pos 2))

/-- Witness for the amended C1 at the unrecognized level silly. -/
theorem load_zero_level_floor_witness :
    (Load (bytes "p") [(bytes "console", []),
        (bytes "option", [(bytes "level", bytes "silly")])]).level = 0 ∧
    (Load (bytes "p") [(bytes "console", []),
        (bytes "option", [(bytes "level", bytes "silly")])]).console = true ∧
    log (Load (bytes "p") [(bytes "console", []),
        (bytes "option", [(bytes "level", bytes "silly")])])
      3 (Payload.str (bytes "y")) [] tm0 tm0 false false
      = some (Load (bytes "p") [(bytes "console", []),
          (bytes "option", [(bytes "level", bytes "silly")])], []) :=
  load_zero_level_floor (bytes "p") (bytes "silly") (Payload.str (bytes "y"))
    [] tm0 tm0 false false (by decide) (by decide)

/-- Every event the syslog branch emits either carries no format string
or is the delivery of the given one. -/
theorem syslogStep_events (u : ULog) (sev : Nat) (layout : GoStr)
    (a : List GoStr) (d : Bool) :
    ∀ e ∈ (syslogStep u sev layout a d).2,
      eventLayout e = none ∨ e = Event.syslogSend sev layout a := by
  intro e he
  simp only [syslogStep] at he
  repeat' split at he
  all_goals
    simp only [List.mem_append, List.mem_cons, List.not_mem_nil,
      or_false, false_or] at he
  all_goals casesm* _ ∨ _
  all_goals subst_vars
  all_goals simp [eventLayout]

/-- Every event the file branch emits either carries no format string or
is a line write of the given one. -/
theorem fileStep_events (u : ULog) (sev : Nat) (layout : GoStr)
    (a : List GoStr) (now : Tm) (o : Bool) :
    ∀ e ∈ (fileStep u sev layout a now o).2,
      eventLayout e = none ∨ ∃ p, e = Event.writeFile p layout a := by
  intro e he
  simp only [fileStep] at he
  repeat' split at he
  all_goals
    simp only [List.mem_append, List.mem_cons, List.not_mem_nil,
      or_false, false_or] at he
  all_goals casesm* _ ∨ _
  all_goals subst_vars
  all_goals simp [eventLayout]

/-- Every event the console branch emits either carries no format string
or is a line write of the given one. -/
theorem consoleStep_events (u : ULog) (sev : Nat) (layout : GoStr)
    (a : List GoStr) (now : Tm) (m : Bool) :
    ∀ e ∈ consoleStep u sev layout a now m,
      eventLayout e = none ∨
        ∃ p k, e = Event.writeConsole u.consoleStdout p layout a k := by
  intro e he
  simp only [consoleStep] at he
  repeat' split at he
  all_goals
    simp only [List.mem_append, List.mem_cons, List.not_mem_nil,
      or_false, false_or] at he
  all_goals casesm* _ ∨ _
  all_goals subst_vars
  all_goals simp [eventLayout]

/-- C5: the dispatcher is not total over its payload.  When a sink is
enabled and the severity passes the filter, a nil payload panics (the
reflect Kind call runs before any nil check); and any non-nil payload
that is neither a string nor a map resolves to an empty format string,
so every write the call performs carries an empty message body rather
than reporting an error. -/
theorem log_nil_panics (u : ULog) (sev : Nat) (args : List GoStr)
    (t1 t2 : Tm) (d o : Bool)
    (h1 : ¬ u.level < sev)
    (h2 : u.syslog = true ∨ u.file = true ∨ u.console = true) :
    log u sev Payload.nil args t1 t2 d o = none ∧
    (∀ u2 evs, log u sev Payload.other args t1 t2 d o = some (u2, evs) →
      ∀ e ∈ evs, ∀ l, eventLayout e = some l → l = []) := by
  have hg : ¬ (u.level < sev ∨
      (u.syslog = false ∧ u.file = false ∧ u.console = false)) := by
    rintro (hc | ⟨hs, hf, hcn⟩)
    · exact h1 hc
    · rcases h2 with h | h | h
      · exact Bool.noConfusion (h.symm.trans hs)
      · exact Bool.noConfusion (h.symm.trans hf)
      · exact Bool.noConfusion (h.symm.trans hcn)
  constructor
  · unfold log
    rw [if_neg hg]
    rfl
  · intro u2 evs hlog e he l hl
    unfold log at hlog
    rw [if_neg hg] at hlog
    simp only [resolveLayout] at hlog
    have htr : trimSpace ([] : GoStr) = [] := rfl
    rw [htr] at hlog
    simp only [Option.some.injEq, Prod.mk.injEq] at hlog
    obtain ⟨rfl, rfl⟩ := hlog
    rw [List.mem_append] at he
    rcases he with he | he
    · rw [List.mem_append] at he
      rcases he with he | he
      · rcases syslogStep_events u sev [] args d e he with hn | hs
        · rw [hn] at hl; exact Option.noConfusion hl
        · rw [hs] at hl
          simp only [eventLayout, Option.some.injEq] at hl
          exact hl.symm
      · rcases fileStep_events _ sev [] args _ o e he with hn | ⟨p, hp⟩
        · rw [hn] at hl; exact Option.noConfusion hl
        · rw [hp] at hl
          simp only [eventLayout, Option.some.injEq] at hl
          exact hl.symm
    · rcases consoleStep_events _ sev [] args _ _ e he with hn | ⟨p, k, hp⟩
      · rw [hn] at hl; exact Option.noConfusion hl
      · rw [hp] at hl
        simp only [eventLayout, Option.some.injEq] at hl
        exact hl.symm

/-- Witness for C5: with the console sink enabled at the default level,
an error emit with a nil payload panics. -/
theorem log_nil_panics_witness :
    log (Load [] [(bytes "console", [])]) 3 Payload.nil [] tm0 tm0 true true
      = none :=
  (log_nil_panics (Load [] [(bytes "console", [])]) 3 [] tm0 tm0 true true
    (by decide) (Or.inr (Or.inr (by decide)))).1

/-- The syslog branch changes at most the syslog handle. -/
theorem syslogStep_state (u : ULog) (sev : Nat) (layout : GoStr)
    (a : List GoStr) (d : Bool) :
    ∃ hh, (syslogStep u sev layout a d).1 = { u with syslogHandle := hh } := by
  simp only [syslogStep]
  repeat' split
  all_goals exact ⟨_, rfl⟩

/-- When the file sink is enabled, the rotation check fires, and the
freshly resolved path differs from the previous one, the file branch
closes the open handle (when there is one), records the new path, and
attempts the open at the new path — in that order, all under the lock;
the write part follows exactly when the open succeeded. -/
theorem fileStep_rotates (u : ULog) (sev : Nat) (layout : GoStr)
    (a : List GoStr) (now : Tm) (o : Bool)
    (h2 : u.file = true)
    (h3 : now.unixNanos - u.lastCheck ≥ 1000000000 ∨ u.fileHandle = none)
    (h4 : strftime u.filePath now ≠ u.filePreviousPath) :
    (fileStep u sev layout a now o).2 =
      [Event.lock] ++
        (match u.fileHandle with
         | some _ => [Event.closeFile]
         | none => []) ++
        [Event.openFile (strftime u.filePath now), Event.unlock] ++
        (if o then
          [Event.lock,
           Event.writeFile
             (timePfx u.fileTime now ++
               (if u.fileSeverity then severityLabels sev else []))
             layout a,
           Event.unlock]
         else []) ∧
    (fileStep u sev layout a now o).1.filePreviousPath
      = strftime u.filePath now ∧
    (fileStep u sev layout a now o).1.fileHandle
      = (if o then some () else none) := by
  simp only [fileStep, h2, if_true]
  rw [if_pos h3]
  have h4a : strftime u.filePath now
      ≠ ({ u with lastCheck := now.unixNanos } : ULog).filePreviousPath := h4
  rw [if_pos h4a]
  rcases hfh : u.fileHandle with _ | ⟨⟩ <;>
    rcases ho : o with _ | _ <;>
      simp [hfh, ho]

/-- C6: during an emit with the file sink enabled, when the rotation
check runs and the path newly resolved from the template differs from
the previously resolved path, the open handle (if any) is closed and
cleared and the new path is recorded as current before the open attempt,
which targets the new path: the file part of the trace is lock, the
close (when a handle was open), the open attempt at the new path,
unlock, then the write part, and the resulting state records the new
path as the previous path. -/
theorem log_rotates (u : ULog) (sev : Nat) (s : GoStr) (args : List GoStr)
    (now : Tm) (d o : Bool)
    (h1 : ¬ u.level < sev)
    (h2 : u.file = true)
    (h3 : now.unixNanos - u.lastCheck ≥ 1000000000 ∨ u.fileHandle = none)
    (h4 : strftime u.filePath now ≠ u.filePreviousPath) :
    ∃ u2 sEvs wEvs cEvs,
      log u sev (Payload.str s) args now now d o =
        some (u2, sEvs ++
          ([Event.lock] ++
            (match u.fileHandle with
             | some _ => [Event.closeFile]
             | none => []) ++
            [Event.openFile (strftime u.filePath now), Event.unlock] ++
            wEvs) ++ cEvs) ∧
      u2.filePreviousPath = strftime u.filePath now := by
  have hg : ¬ (u.level < sev ∨
      (u.syslog = false ∧ u.file = false ∧ u.console = false)) := by
    rintro (hc | ⟨_, hf, _⟩)
    · exact h1 hc
    · exact Bool.noConfusion (h2.symm.trans hf)
  obtain ⟨hh, hsyl⟩ := syslogStep_state u sev (trimSpace s) args d
  have hnow : (if u.optionUTC then now else now) = now := ite_self now
  have hrot := fileStep_rotates { u with syslogHandle := hh } sev
    (trimSpace s) args now o h2 h3 h4
  refine ⟨(fileStep { u with syslogHandle := hh } sev (trimSpace s) args
      now o).1,
    (syslogStep u sev (trimSpace s) args d).2,
    (if o then
      [Event.lock,
       Event.writeFile
         (timePfx u.fileTime now ++
           (if u.fileSeverity then severityLabels sev else []))
         (trimSpace s) args,
       Event.unlock]
     else []),
    consoleStep (fileStep { u with syslogHandle := hh } sev (trimSpace s)
      args now o).1 sev (trimSpace s) args now (Payload.str s).isMp,
    ?_, hrot.2.1⟩
  unfold log
  rw [if_neg hg]
  simp only [resolveLayout]
  rw [hnow, hsyl, hrot.1]

/-- Configuration used to instantiate C6: file sink enabled, an open
handle, and a stale previous path. -/
def rotSample : ULog :=
  { initState [] with
      file := true
      fileHandle := some ()
      filePath := bytes "log-%H"
      filePreviousPath := bytes "log-07" }

/-- Witness for C6: at the sample instant (hour 08) the path template
log-%H resolves away from the stale log-07, so the rotation fires. -/
theorem log_rotates_witness :
    ∃ u2 sEvs wEvs cEvs,
      log rotSample 3 (Payload.str (bytes "m")) [] tm0 tm0 true true =
        some (u2, sEvs ++
          ([Event.lock] ++
            (match rotSample.fileHandle with
             | some _ => [Event.closeFile]
             | none => []) ++
            [Event.openFile (strftime rotSample.filePath tm0), Event.unlock] ++
            wEvs) ++ cEvs) ∧
      u2.filePreviousPath = strftime rotSample.filePath tm0 :=
  log_rotates rotSample 3 (bytes "m") [] tm0 true true
    (by decide) (by decide) (Or.inl (by decide)) (by decide)

end Ulog
